import Mathlib

/-!
Shallow embedding of src/src/sys/memory_posix.c: POSIX page operations
(reserve, protect, release) and the fixed-capacity shared-memory registry
(create, map, unmap, destroy) built over a free list of pool entries.

OS system calls (mmap, munmap, shm_open, ftruncate, close, shm_unlink,
getpagesize) are modelled explicitly: their outcomes are either derived
from an explicit OS namespace state (shm object existence for O_EXCL and
shm_unlink) or supplied by an oracle parameter standing for the
environment-dependent result of the call (resource failures of shm_open,
ftruncate and close, the address returned by mmap, the result of munmap,
the page size reported by getpagesize).
-/

namespace MemoryPosix

/-! ## Platform constants (Linux values of the POSIX macros used by the file) -/

def PROT_NONE : Nat := 0

def PROT_READ : Nat := 1

def PROT_WRITE : Nat := 2

def PROT_EXEC : Nat := 4

def MAP_PRIVATE : Nat := 2

def MAP_FIXED : Nat := 16

def MAP_ANON : Nat := 32

def MAP_NORESERVE : Nat := 16384

def O_RDONLY : Nat := 0

def O_RDWR : Nat := 2

def O_CREAT : Nat := 64

def O_EXCL : Nat := 128

def S_IREAD : Nat := 256

def S_IWRITE : Nat := 128

def PATH_MAX : Nat := 4096

/-- `static const int MAX_SHMEM = 128;` -/
def MAX_SHMEM : Nat := 128

/-- `page_access_t` from sys/memory.h (values used by this file). -/
inductive page_access_t where
  | ACC_NONE
  | ACC_READONLY
  | ACC_READWRITE
  | ACC_READWRITEEXEC
  deriving DecidableEq, Inhabited

/-- `access_to_mode_flags` from memory_posix.c. -/
def access_to_mode_flags : page_access_t → Nat
  | .ACC_READONLY => S_IREAD
  | .ACC_READWRITE => S_IREAD ||| S_IWRITE
  | _ => 0

/-- `access_to_open_flags` from memory_posix.c. -/
def access_to_open_flags : page_access_t → Nat
  | .ACC_READONLY => O_RDONLY
  | .ACC_READWRITE => O_RDWR
  | _ => 0

/-- `access_to_protect_flags` from memory_posix.c. -/
def access_to_protect_flags : page_access_t → Nat
  | .ACC_READONLY => PROT_READ
  | .ACC_READWRITE => PROT_READ ||| PROT_WRITE
  | .ACC_READWRITEEXEC => PROT_READ ||| PROT_WRITE ||| PROT_EXEC
  | _ => PROT_NONE

/-! ## Page operations -/

/-- `size_t get_page_size() { return getpagesize(); }` — the getpagesize
    OS call is modelled as a constant the OS supplies for the process. -/
def get_page_size (getpagesize : Nat) : Nat :=
  getpagesize

/-- `size_t get_allocation_granularity() { return get_page_size(); }` -/
def get_allocation_granularity (getpagesize : Nat) : Nat :=
  get_page_size getpagesize

/-- The arguments reserve_pages passes to mmap:
    `mmap(ptr, size, PROT_NONE, MAP_ANON | MAP_NORESERVE | MAP_PRIVATE, -1, 0)`. -/
structure MmapRequest where
  addr : Nat
  len : Nat
  prot : Nat
  flags : Nat
  fd : Int
  offset : Nat
  deriving DecidableEq

/-- Outcome of a single mmap call as the OS reports it: MAP_FAILED, or a
    mapping installed at some address. -/
inductive MmapOutcome where
  | MAP_FAILED
  | mapped (addr : Nat)
  deriving DecidableEq

/-- The mmap request issued by reserve_pages for a given ptr and size. -/
def reserve_mmap_request (ptr size : Nat) : MmapRequest :=
  { addr := ptr
    len := size
    prot := PROT_NONE
    flags := MAP_ANON ||| MAP_NORESERVE ||| MAP_PRIVATE
    fd := -1
    offset := 0 }

/-- `bool reserve_pages(void *ptr, size_t size)` given the outcome the OS
    returns for its single mmap call. The result pairs the boolean return
    value with the list of munmap calls the function issues on its way out
    (the cleanup of a stray mapping made at the wrong address). -/
def reserve_pages (ptr size : Nat) (osRes : MmapOutcome) : Bool × List (Nat × Nat) :=
  match osRes with
  | .MAP_FAILED => (false, [])
  | .mapped res =>
      if res ≠ ptr then
        (false, [(res, size)])
      else
        (true, [])

/-- `bool release_pages(void *ptr, size_t size) { return munmap(ptr, size) == 0; }`
    with the munmap OS call modelled as a function from the call arguments
    to the returned status code. -/
def release_pages (munmap : Nat → Nat → Int) (ptr size : Nat) : Bool :=
  munmap ptr size == 0

/-- `bool protect_pages(void *ptr, size_t size, page_access_t access)` with
    the mprotect OS call modelled as a function from its arguments to the
    returned status code. -/
def protect_pages (mprotect : Nat → Nat → Nat → Int) (ptr size : Nat)
    (access : page_access_t) : Bool :=
  mprotect ptr size (access_to_protect_flags access) == 0

/-- `bool unmap_shared_memory(shmem_handle_t handle, void *start, size_t size)`:
    the body is exactly `munmap(start, size) == 0`; the handle is unused. -/
def unmap_shared_memory (munmap : Nat → Nat → Int) (handle : Nat)
    (start size : Nat) : Bool :=
  munmap start size == 0

/-! ## Shared-memory registry -/

/-- The NUL character terminating C strings. -/
def NUL : Char := Char.ofNat 0

/-- The bytes `strncpy(dst, src, n)` places in a fixed n-byte buffer: the
    first n characters of src, NUL-padded up to n when src is shorter than
    n, and with no NUL terminator when src has n or more characters. -/
def strncpy_buffer (src : List Char) (n : Nat) : List Char :=
  src.take n ++ List.replicate (n - src.length) NUL

/-- The C string later read back from a fixed-size buffer: the prefix
    before the first NUL when the buffer holds one, and undefined (reading
    past the end of the buffer) when it does not. -/
def stored_name (buf : List Char) : Option (List Char) :=
  if NUL ∈ buf then some (buf.takeWhile (fun c => c != NUL)) else none

/-- `shmem_t`: a pool entry pairing the copied object name buffer with the
    OS file handle. -/
structure shmem_t where
  filename : List Char
  handle : Int
  deriving DecidableEq, Inhabited

/-- Modelled from the spec: core/list.h is not part of the visible source.
    The free list threads together the currently-unused entries; drawing
    takes the first entry. Entries are identified by their pool index. -/
def list_first_entry (l : List Nat) : Option Nat :=
  l.head?

/-- Modelled from the spec: core/list.h list_add appends a node to the
    list. -/
def list_add (l : List Nat) (i : Nat) : List Nat :=
  l ++ [i]

/-- Modelled from the spec: core/list.h list_remove removes a node from
    the list. -/
def list_remove (l : List Nat) (i : Nat) : List Nat :=
  l.erase i

/-- Combined program and OS state threaded through the registry
    operations: the static registry globals (s_initialized, s_shmem,
    s_free_shmem) and the OS-side shared-memory namespace and open file
    descriptors. Each OS shm object is a (name, object id) pair; the
    object id is drawn from the fd counter at creation so that distinct
    creations under one name are distinguishable. -/
structure SysState where
  initialized : Bool
  entries : List shmem_t
  freeList : List Nat
  shmNames : List (List Char × Int)
  nextFd : Int
  openFds : List Int
  deriving DecidableEq

/-- The zero-initialized static state the process starts in, with an empty
    OS shm namespace. -/
def initialState : SysState :=
  { initialized := false
    entries := List.replicate MAX_SHMEM default
    freeList := []
    shmNames := []
    nextFd := 3
    openFds := [] }

/-- Environment-dependent outcomes of the fallible OS calls: whether a
    shm_open on a free name succeeds at the resource level, whether
    ftruncate of a given fd to a given size succeeds, and whether close of
    a given fd reports success. -/
structure OsOracle where
  shm_open_ok : List Char → Nat → Nat → Bool
  ftruncate_ok : Int → Nat → Bool
  close_ok : Int → Bool

/-- Effect of `shm_unlink(nm)` on the OS namespace: every object with
    that name is removed. -/
def shm_unlink_names (ns : List (List Char × Int)) (nm : List Char) :
    List (List Char × Int) :=
  ns.filter (fun p => p.1 != nm)

/-- Whether an object with the given name exists in the OS namespace
    (shm_unlink reports success exactly when one does; shm_open with
    O_EXCL fails when one does). -/
def shm_exists (ns : List (List Char × Int)) (nm : List Char) : Bool :=
  ns.any (fun p => p.1 == nm)

/-- `shm_open(nm, oflag | O_CREAT | O_EXCL, mode)`: fails when the name
    already exists (O_EXCL), or when the oracle reports a resource-level
    failure; otherwise returns the fresh fd it is given. -/
def shm_open_excl (oracle : OsOracle) (ns : List (List Char × Int))
    (nm : List Char) (oflag mode : Nat) (fd : Int) : Option Int :=
  if shm_exists ns nm then none
  else if oracle.shm_open_ok nm oflag mode then some fd
  else none

/-- `static void init_shared_memory_entries()`: on the first call only,
    the loop list_adds the MAX_SHMEM pool entries 0, 1, ..., MAX_SHMEM - 1
    to the free list in order. -/
def init_shared_memory_entries (s : SysState) : SysState :=
  if s.initialized then s
  else
    { s with
      initialized := true
      freeList := s.freeList ++ List.range MAX_SHMEM }

/-- Result of create_shared_memory: the CHECK_NOTNULL abort (modelled from
    the spec: core/assert.h CHECK_NOTNULL halts the process when its
    argument is null), a NULL return, or a handle (the pool index of the
    entry) together with the resulting state. Failure results carry the
    resulting state as well, since the OS calls already made have lasting
    effects. -/
inductive CreateResult where
  | aborted
  | nullHandle (s : SysState)
  | ok (idx : Nat) (s : SysState)
  deriving DecidableEq

def CreateResult.isOk : CreateResult → Bool
  | .ok _ _ => true
  | _ => false

def CreateResult.isNull : CreateResult → Bool
  | .nullHandle _ => true
  | _ => false

def CreateResult.getIdx : CreateResult → Nat
  | .ok i _ => i
  | _ => 0

def CreateResult.getState : CreateResult → SysState
  | .ok _ s => s
  | .nullHandle s => s
  | .aborted => initialState

/-- `shmem_handle_t create_shared_memory(const char *filename, size_t size,
    page_access_t access)` from memory_posix.c, step for step: lazy init;
    draw the first free entry and CHECK_NOTNULL it; unconditionally
    shm_unlink the name; shm_open with O_CREAT | O_EXCL (NULL on failure);
    ftruncate to size (on failure shm_unlink the just-created object and
    return NULL); on success strncpy the name into the entry, record the
    fd, remove the entry from the free list and return it. -/
def create_shared_memory (oracle : OsOracle) (s0 : SysState)
    (filename : List Char) (size : Nat) (access : page_access_t) :
    CreateResult :=
  let s := init_shared_memory_entries s0
  match list_first_entry s.freeList with
  | none => .aborted
  | some idx =>
    let s1 := { s with shmNames := shm_unlink_names s.shmNames filename }
    let oflag := access_to_open_flags access ||| O_CREAT ||| O_EXCL
    let mode := access_to_mode_flags access
    match shm_open_excl oracle s1.shmNames filename oflag mode s1.nextFd with
    | none => .nullHandle s1
    | some fd =>
      let s2 :=
        { s1 with
          shmNames := (filename, fd) :: s1.shmNames
          nextFd := s1.nextFd + 1
          openFds := fd :: s1.openFds }
      if oracle.ftruncate_ok fd size then
        let ent : shmem_t :=
          { filename := strncpy_buffer filename PATH_MAX, handle := fd }
        .ok idx
          { s2 with
            entries := s2.entries.set idx ent
            freeList := list_remove s2.freeList idx }
      else
        .nullHandle { s2 with shmNames := shm_unlink_names s2.shmNames filename }

/-- `bool destroy_shared_memory(shmem_handle_t handle)` from
    memory_posix.c: lazy init; close the entry fd; shm_unlink the C string
    in the entry name buffer; add the entry back to the free list
    unconditionally; return the conjunction of the close and unlink
    results. close releases the fd even when it reports failure. -/
def destroy_shared_memory (oracle : OsOracle) (s0 : SysState) (h : Nat) :
    Bool × SysState :=
  let s := init_shared_memory_entries s0
  let shmem := s.entries.getD h default
  let res1 := oracle.close_ok shmem.handle
  let sC := { s with openFds := s.openFds.erase shmem.handle }
  let nm := shmem.filename.takeWhile (fun c => c != NUL)
  let res2 := shm_exists sC.shmNames nm
  let sU := { sC with shmNames := shm_unlink_names sC.shmNames nm }
  let sF := { sU with freeList := list_add sU.freeList h }
  (res1 && res2, sF)

/-! ## Concrete oracles and states used to instantiate the theorems -/

/-- An oracle under which every fallible OS call succeeds. -/
def allOkOracle : OsOracle :=
  { shm_open_ok := fun _ _ _ => true
    ftruncate_ok := fun _ _ => true
    close_ok := fun _ => true }

/-- An oracle under which shm_open always fails at the resource level. -/
def openFailOracle : OsOracle :=
  { shm_open_ok := fun _ _ _ => false
    ftruncate_ok := fun _ _ => true
    close_ok := fun _ => true }

/-- An oracle under which ftruncate always fails. -/
def truncFailOracle : OsOracle :=
  { shm_open_ok := fun _ _ _ => true
    ftruncate_ok := fun _ _ => false
    close_ok := fun _ => true }

/-- A registry state whose pool has been fully exhausted. -/
def exhaustedState : SysState :=
  { initialized := true
    entries := List.replicate MAX_SHMEM default
    freeList := []
    shmNames := []
    nextFd := 200
    openFds := [] }

/-! ## Claim theorems -/

/-- C1: reserve_pages issues its single mmap request without MAP_FIXED in
the flags; it returns true exactly when the OS maps the range at the
requested address; when the OS installs the mapping at any other address it
munmaps that stray mapping and returns false; and when the mmap call itself
fails it returns false having issued no munmap. -/
theorem C1_reserve_pages_collision_protocol (ptr size : Nat) :
    (reserve_mmap_request ptr size).flags &&& MAP_FIXED = 0
    ∧ (∀ osRes : MmapOutcome,
        (reserve_pages ptr size osRes).1 = true ↔ osRes = MmapOutcome.mapped ptr)
    ∧ (∀ res : Nat, res ≠ ptr →
        reserve_pages ptr size (MmapOutcome.mapped res) = (false, [(res, size)]))
    ∧ reserve_pages ptr size MmapOutcome.MAP_FAILED = (false, []) := by
  refine ⟨?_, ?_, ?_, rfl⟩
  · show (MAP_ANON ||| MAP_NORESERVE ||| MAP_PRIVATE) &&& MAP_FIXED = 0
    decide
  · intro osRes
    cases osRes with
    | MAP_FAILED => simp [reserve_pages]
    | mapped res =>
        by_cases h : res = ptr
        · subst h; simp [reserve_pages]
        · simp [reserve_pages, h]
  · intro res h
    simp [reserve_pages, h]

/-- Witness for C1 at ptr = 4096, size = 100, with the OS returning the
stray address 8192. -/
theorem C1_reserve_pages_collision_protocol_witness :
    reserve_pages 4096 100 (MmapOutcome.mapped 8192) = (false, [(8192, 100)]) :=
  (C1_reserve_pages_collision_protocol 4096 100).2.2.1 8192 (by decide)

/-- C2: when the free pool is exhausted (the free list after lazy
initialization is empty), create_shared_memory halts via the CHECK_NOTNULL
assertion rather than returning a null handle or any other value. -/
theorem C2_pool_exhaustion_aborts (oracle : OsOracle) (s : SysState)
    (filename : List Char) (size : Nat) (access : page_access_t)
    (hex : (init_shared_memory_entries s).freeList = []) :
    create_shared_memory oracle s filename size access = CreateResult.aborted := by
  simp [create_shared_memory, hex, list_first_entry]

/-- Witness for C2: a concrete exhausted pool state. -/
theorem C2_pool_exhaustion_aborts_witness :
    create_shared_memory allOkOracle exhaustedState [] 4096
      page_access_t.ACC_READWRITE = CreateResult.aborted :=
  C2_pool_exhaustion_aborts allOkOracle exhaustedState [] 4096
    page_access_t.ACC_READWRITE (by decide)

/-- After shm_unlink removes a name, no object with that name exists in
the namespace. -/
theorem shm_exists_shm_unlink_names (ns : List (List Char × Int))
    (nm : List Char) :
    shm_exists (shm_unlink_names ns nm) nm = false := by
  simp [shm_exists, shm_unlink_names, List.any_eq_true, List.mem_filter]

/-- No pair named nm survives shm_unlink of nm. -/
theorem not_mem_shm_unlink_names (ns : List (List Char × Int))
    (nm : List Char) (x : Int) :
    (nm, x) ∉ shm_unlink_names ns nm := by
  simp [shm_unlink_names, List.mem_filter]

/-- Lazy initialization leaves the initialized flag set. -/
theorem init_initialized (s : SysState) :
    (init_shared_memory_entries s).initialized = true := by
  by_cases h : s.initialized <;> simp [init_shared_memory_entries, h]

/-- Unlinking a name twice has the same effect as once. -/
theorem shm_unlink_names_idem (ns : List (List Char × Int)) (nm : List Char) :
    shm_unlink_names (shm_unlink_names ns nm) nm = shm_unlink_names ns nm := by
  simp [shm_unlink_names, List.filter_filter]

/-- Unlinking a name drops a head pair carrying that name. -/
theorem shm_unlink_names_cons_self (ns : List (List Char × Int))
    (nm : List Char) (x : Int) :
    shm_unlink_names ((nm, x) :: ns) nm = shm_unlink_names ns nm := by
  simp [shm_unlink_names]

/-- Lazy initialization of an already-initialized state changes nothing. -/
theorem init_of_initialized (s : SysState) (h : s.initialized = true) :
    init_shared_memory_entries s = s := by
  simp [init_shared_memory_entries, h]

/-- Characterization of a successful create_shared_memory run: the handle
is the entry drawn at the head of the free list, the exclusive open and
the ftruncate both succeeded, and the resulting state is the
post-initialization state with the object created, the fd drawn fresh and
recorded, the name copied into the entry by strncpy, and the entry removed
from the free list. -/
theorem create_ok_shape (oracle : OsOracle) (s : SysState) (f : List Char)
    (size : Nat) (access : page_access_t) (i : Nat) (s' : SysState)
    (h : create_shared_memory oracle s f size access = CreateResult.ok i s') :
    list_first_entry (init_shared_memory_entries s).freeList = some i
    ∧ oracle.shm_open_ok f (access_to_open_flags access ||| O_CREAT ||| O_EXCL)
        (access_to_mode_flags access) = true
    ∧ oracle.ftruncate_ok (init_shared_memory_entries s).nextFd size = true
    ∧ s' = { initialized := (init_shared_memory_entries s).initialized
             entries := (init_shared_memory_entries s).entries.set i
               { filename := strncpy_buffer f PATH_MAX
                 handle := (init_shared_memory_entries s).nextFd }
             freeList := list_remove (init_shared_memory_entries s).freeList i
             shmNames := ((f, (init_shared_memory_entries s).nextFd))
               :: shm_unlink_names (init_shared_memory_entries s).shmNames f
             nextFd := (init_shared_memory_entries s).nextFd + 1
             openFds := (init_shared_memory_entries s).nextFd
               :: (init_shared_memory_entries s).openFds } := by
  cases hfl : list_first_entry (init_shared_memory_entries s).freeList with
  | none => simp [create_shared_memory, hfl] at h
  | some idx =>
      simp only [create_shared_memory, hfl, shm_open_excl,
        shm_exists_shm_unlink_names] at h
      by_cases hopen : oracle.shm_open_ok f
          (access_to_open_flags access ||| O_CREAT ||| O_EXCL)
          (access_to_mode_flags access)
      · by_cases htrunc :
            oracle.ftruncate_ok (init_shared_memory_entries s).nextFd size
        · simp [hopen, htrunc] at h
          obtain ⟨h1, h2⟩ := h
          subst h2
          simp [hfl, h1, hopen, htrunc]
        · simp [hopen, htrunc] at h
      · simp [hopen] at h

/-- Any NULL return of create_shared_memory leaves the free list of the
post-initialization state unchanged. -/
theorem create_nullHandle_freeList (oracle : OsOracle) (s : SysState)
    (f : List Char) (size : Nat) (access : page_access_t) (s' : SysState)
    (h : create_shared_memory oracle s f size access
      = CreateResult.nullHandle s') :
    s'.freeList = (init_shared_memory_entries s).freeList := by
  cases hfl : list_first_entry (init_shared_memory_entries s).freeList with
  | none => simp [create_shared_memory, hfl] at h
  | some idx =>
      simp only [create_shared_memory, hfl, shm_open_excl,
        shm_exists_shm_unlink_names] at h
      by_cases hopen : oracle.shm_open_ok f
          (access_to_open_flags access ||| O_CREAT ||| O_EXCL)
          (access_to_mode_flags access)
      · by_cases htrunc :
            oracle.ftruncate_ok (init_shared_memory_entries s).nextFd size
        · simp [hopen, htrunc] at h
        · simp [hopen, htrunc] at h
          subst h
          rfl
      · simp [hopen] at h
        subst h
        rfl

/-- C3: create_shared_memory is atomic with respect to the pool. With the
free list nonempty (head entry idx drawn): (a) when the exclusive open
fails, it returns NULL and the free list is unchanged; (b) when the open
succeeds and the ftruncate fails, it returns NULL, the free list is
unchanged, and the just-created object has been unlinked from the
namespace; (c) a handle is returned only with the drawn entry removed from
the free list — so the entry leaves the free list exactly on the success
path. -/
theorem C3_create_failure_atomic_pool (oracle : OsOracle) (s : SysState)
    (f : List Char) (size : Nat) (access : page_access_t) (idx : Nat)
    (hpool : list_first_entry (init_shared_memory_entries s).freeList = some idx) :
    (oracle.shm_open_ok f (access_to_open_flags access ||| O_CREAT ||| O_EXCL)
        (access_to_mode_flags access) = false →
      (create_shared_memory oracle s f size access).isNull = true
      ∧ (create_shared_memory oracle s f size access).getState.freeList
          = (init_shared_memory_entries s).freeList)
    ∧ (oracle.shm_open_ok f (access_to_open_flags access ||| O_CREAT ||| O_EXCL)
        (access_to_mode_flags access) = true →
       oracle.ftruncate_ok (init_shared_memory_entries s).nextFd size = false →
      (create_shared_memory oracle s f size access).isNull = true
      ∧ (create_shared_memory oracle s f size access).getState.freeList
          = (init_shared_memory_entries s).freeList
      ∧ shm_exists
          (create_shared_memory oracle s f size access).getState.shmNames f
          = false)
    ∧ (∀ i s', create_shared_memory oracle s f size access = CreateResult.ok i s' →
        i = idx ∧ s'.freeList
          = list_remove (init_shared_memory_entries s).freeList idx) := by
  refine ⟨?_, ?_, ?_⟩
  · intro hopen
    simp [create_shared_memory, hpool, shm_open_excl,
      shm_exists_shm_unlink_names, hopen, CreateResult.isNull,
      CreateResult.getState]
  · intro hopen htrunc
    simp [create_shared_memory, hpool, shm_open_excl,
      shm_exists_shm_unlink_names, hopen, htrunc, CreateResult.isNull,
      CreateResult.getState]
  · intro i s' h
    simp only [create_shared_memory, hpool, shm_open_excl,
      shm_exists_shm_unlink_names] at h
    by_cases hopen : oracle.shm_open_ok f
        (access_to_open_flags access ||| O_CREAT ||| O_EXCL)
        (access_to_mode_flags access)
    · by_cases htrunc :
          oracle.ftruncate_ok (init_shared_memory_entries s).nextFd size
      · simp [hopen, htrunc] at h
        obtain ⟨h1, h2⟩ := h
        subst h2
        simp [h1]
      · simp [hopen, htrunc] at h
    · simp [hopen] at h

/-- Witness for C3: a concrete run in which ftruncate fails — NULL is
returned, the free list is untouched and the object has been unlinked. -/
theorem C3_create_failure_atomic_pool_witness :
    (create_shared_memory truncFailOracle initialState ['x'] 64
        page_access_t.ACC_READWRITE).isNull = true
    ∧ (create_shared_memory truncFailOracle initialState ['x'] 64
        page_access_t.ACC_READWRITE).getState.freeList
        = (init_shared_memory_entries initialState).freeList
    ∧ shm_exists (create_shared_memory truncFailOracle initialState ['x'] 64
        page_access_t.ACC_READWRITE).getState.shmNames ['x'] = false :=
  (C3_create_failure_atomic_pool truncFailOracle initialState ['x'] 64
    page_access_t.ACC_READWRITE 0 (by decide)).2.1 rfl rfl

/-- C5: the pool is lazily initialized exactly once — the first operation
on an uninitialized state appends all MAX_SHMEM entries to the free list
and sets the flag, and initialization of an initialized state changes
nothing — and the free/in-use partition is preserved by every operation: a
successful create removes exactly the drawn entry from the free list
(keeping it duplicate-free), a NULL-returning create leaves the free list
unchanged, and destroy appends exactly the destroyed handle back (keeping
the list duplicate-free when the handle was live, i.e. not free). -/
theorem C5_pool_partition_invariant :
    (∀ s : SysState, s.initialized = false →
        init_shared_memory_entries s
          = { s with initialized := true
                     freeList := s.freeList ++ List.range MAX_SHMEM })
    ∧ (∀ s : SysState, s.initialized = true →
        init_shared_memory_entries s = s)
    ∧ (∀ (oracle : OsOracle) (s : SysState) (f : List Char) (size : Nat)
        (access : page_access_t) (i : Nat) (s' : SysState),
        create_shared_memory oracle s f size access = CreateResult.ok i s' →
          i ∈ (init_shared_memory_entries s).freeList
          ∧ s'.freeList = (init_shared_memory_entries s).freeList.erase i
          ∧ ((init_shared_memory_entries s).freeList.Nodup →
              s'.freeList.Nodup
              ∧ i ∉ s'.freeList
              ∧ s'.freeList.length + 1
                  = (init_shared_memory_entries s).freeList.length
              ∧ ∀ j ∈ s'.freeList, j ∈ (init_shared_memory_entries s).freeList))
    ∧ (∀ (oracle : OsOracle) (s : SysState) (f : List Char) (size : Nat)
        (access : page_access_t) (s' : SysState),
        create_shared_memory oracle s f size access
            = CreateResult.nullHandle s' →
          s'.freeList = (init_shared_memory_entries s).freeList)
    ∧ (∀ (oracle : OsOracle) (s : SysState) (h : Nat),
        (destroy_shared_memory oracle s h).2.freeList
          = (init_shared_memory_entries s).freeList ++ [h]
        ∧ ((init_shared_memory_entries s).freeList.Nodup →
            h ∉ (init_shared_memory_entries s).freeList →
            (destroy_shared_memory oracle s h).2.freeList.Nodup)
        ∧ (destroy_shared_memory oracle s h).2.freeList.length
            = (init_shared_memory_entries s).freeList.length + 1
        ∧ h ∈ (destroy_shared_memory oracle s h).2.freeList) := by
  refine ⟨?_, ?_, ?_, ?_, ?_⟩
  · intro s h
    simp [init_shared_memory_entries, h]
  · intro s h
    simp [init_shared_memory_entries, h]
  · intro oracle s f size access i s' h
    obtain ⟨hfl, -, -, hs⟩ := create_ok_shape oracle s f size access i s' h
    simp only [list_first_entry] at hfl
    have hmem : i ∈ (init_shared_memory_entries s).freeList :=
      List.mem_of_mem_head? (by simp [hfl])
    subst hs
    refine ⟨hmem, rfl, ?_⟩
    intro hnd
    refine ⟨hnd.erase i, ?_, ?_, ?_⟩
    · simpa [list_remove] using hnd.not_mem_erase
    · simpa [list_remove] using List.length_erase_add_one hmem
    · intro j hj
      exact List.mem_of_mem_erase (by simpa [list_remove] using hj)
  · intro oracle s f size access s' h
    exact create_nullHandle_freeList oracle s f size access s' h
  · intro oracle s h
    refine ⟨rfl, ?_, ?_, ?_⟩
    · intro hnd hmem
      show ((init_shared_memory_entries s).freeList ++ [h]).Nodup
      simp [List.nodup_append, hnd, hmem]
    · show ((init_shared_memory_entries s).freeList ++ [h]).length = _ + 1
      simp
    · show h ∈ (init_shared_memory_entries s).freeList ++ [h]
      simp

set_option maxRecDepth 20000 in
/-- Witness for C5: a concrete successful creation from the pristine
state draws entry 0, which leaves the free list and stays out of it. -/
theorem C5_pool_partition_invariant_witness :
    (create_shared_memory allOkOracle initialState ['x'] 64
        page_access_t.ACC_READWRITE).getIdx
      ∈ (init_shared_memory_entries initialState).freeList
    ∧ (create_shared_memory allOkOracle initialState ['x'] 64
        page_access_t.ACC_READWRITE).getIdx
      ∉ (create_shared_memory allOkOracle initialState ['x'] 64
        page_access_t.ACC_READWRITE).getState.freeList :=
  ⟨(C5_pool_partition_invariant.2.2.1 allOkOracle initialState ['x'] 64
      page_access_t.ACC_READWRITE _ _ rfl).1,
   ((C5_pool_partition_invariant.2.2.1 allOkOracle initialState ['x'] 64
      page_access_t.ACC_READWRITE _ _ rfl).2.2 (by decide)).2.1⟩

/-- C7: unmap_shared_memory ignores its handle argument entirely and is
the same function of the munmap outcome, address and size as
release_pages. -/
theorem C7_unmap_shared_memory_eq_release_pages
    (munmap : Nat → Nat → Int) (handle : Nat) (start size : Nat) :
    unmap_shared_memory munmap handle start size
      = release_pages munmap start size :=
  rfl

/-- C8: get_allocation_granularity returns exactly the value of
get_page_size, and get_page_size returns the positive page size the OS
reports — the model is a pure function of the per-process getpagesize
constant, so every call returns this same value. -/
theorem C8_allocation_granularity_eq_page_size (getpagesize : Nat)
    (hpos : 0 < getpagesize) :
    get_allocation_granularity getpagesize = get_page_size getpagesize
    ∧ 0 < get_page_size getpagesize :=
  ⟨rfl, hpos⟩

/-- Witness for C8 at the common 4096-byte page size. -/
theorem C8_allocation_granularity_eq_page_size_witness :
    get_allocation_granularity 4096 = get_page_size 4096
    ∧ 0 < get_page_size 4096 :=
  C8_allocation_granularity_eq_page_size 4096 (by decide)

/-- C6: for every handle and every close/unlink outcome,
destroy_shared_memory closes the entry fd (removing it from the open fd
set), unlinks the OS object named by the C string stored in the entry name
buffer, and returns the entry to the free list unconditionally; its
boolean result is true exactly when both the close and the unlink
succeeded. -/
theorem C6_destroy_best_effort (oracle : OsOracle) (s : SysState) (h : Nat) :
    (destroy_shared_memory oracle s h).2.freeList
      = list_add (init_shared_memory_entries s).freeList h
    ∧ (destroy_shared_memory oracle s h).2.openFds
      = (init_shared_memory_entries s).openFds.erase
          ((init_shared_memory_entries s).entries.getD h default).handle
    ∧ (destroy_shared_memory oracle s h).2.shmNames
      = shm_unlink_names (init_shared_memory_entries s).shmNames
          (((init_shared_memory_entries s).entries.getD h
              default).filename.takeWhile (fun c => c != NUL))
    ∧ ((destroy_shared_memory oracle s h).1 = true ↔
        oracle.close_ok
            ((init_shared_memory_entries s).entries.getD h default).handle
          = true
        ∧ shm_exists (init_shared_memory_entries s).shmNames
            (((init_shared_memory_entries s).entries.getD h
                default).filename.takeWhile (fun c => c != NUL))
          = true) := by
  refine ⟨rfl, rfl, rfl, ?_⟩
  show (_ && _) = true ↔ _
  rw [Bool.and_eq_true]

/-- C9: when the ftruncate fails after a successful exclusive open,
create_shared_memory returns NULL with the just-opened fd still open —
prepended to the open fd set and recorded in no pool entry — so each such
failure leaks one OS file handle. -/
theorem C9_ftruncate_failure_leaks_fd (oracle : OsOracle) (s : SysState)
    (f : List Char) (size : Nat) (access : page_access_t) (idx : Nat)
    (hpool : list_first_entry (init_shared_memory_entries s).freeList
      = some idx)
    (hopen : oracle.shm_open_ok f
        (access_to_open_flags access ||| O_CREAT ||| O_EXCL)
        (access_to_mode_flags access) = true)
    (htrunc : oracle.ftruncate_ok (init_shared_memory_entries s).nextFd size
      = false) :
    (create_shared_memory oracle s f size access).isNull = true
    ∧ (create_shared_memory oracle s f size access).getState.openFds
        = (init_shared_memory_entries s).nextFd
            :: (init_shared_memory_entries s).openFds
    ∧ (create_shared_memory oracle s f size access).getState.entries
        = (init_shared_memory_entries s).entries := by
  simp [create_shared_memory, hpool, shm_open_excl,
    shm_exists_shm_unlink_names, hopen, htrunc, CreateResult.isNull,
    CreateResult.getState]

/-- Witness for C9: a concrete run in which ftruncate fails leaves fd 3
open with no entry recording it. -/
theorem C9_ftruncate_failure_leaks_fd_witness :
    (create_shared_memory truncFailOracle initialState ['y'] 64
        page_access_t.ACC_READWRITE).isNull = true
    ∧ (create_shared_memory truncFailOracle initialState ['y'] 64
        page_access_t.ACC_READWRITE).getState.openFds
        = (init_shared_memory_entries initialState).nextFd
            :: (init_shared_memory_entries initialState).openFds
    ∧ (create_shared_memory truncFailOracle initialState ['y'] 64
        page_access_t.ACC_READWRITE).getState.entries
        = (init_shared_memory_entries initialState).entries :=
  C9_ftruncate_failure_leaks_fd truncFailOracle initialState ['y'] 64
    page_access_t.ACC_READWRITE 0 (by decide) rfl rfl

/-- C4: create_shared_memory unconditionally unlinks the name before the
exclusive creation: its result is unchanged by first removing every object
named filename from the OS namespace, so a pre-existing object — live or
not — never makes the creation fail. Consequently a second create with the
same name, run on the state a first successful create produced, succeeds
again (whenever the pool is not exhausted and the OS does not spuriously
fail the resize); afterwards the first object is gone from the namespace
and the second is present in its place. -/
theorem C4_create_clobbers_existing (oracle : OsOracle) (s : SysState)
    (f : List Char) (size : Nat) (access : page_access_t) :
    create_shared_memory oracle s f size access
      = create_shared_memory oracle
          { s with shmNames := shm_unlink_names s.shmNames f } f size access
    ∧ (∀ i1 s1,
        create_shared_memory oracle s f size access = CreateResult.ok i1 s1 →
        i1 < (init_shared_memory_entries s).entries.length →
        s1.freeList ≠ [] →
        oracle.ftruncate_ok s1.nextFd size = true →
        (create_shared_memory oracle s1 f size access).isOk = true
        ∧ (f, (s1.entries.getD i1 default).handle)
            ∉ (create_shared_memory oracle s1 f size access).getState.shmNames
        ∧ (f, s1.nextFd)
            ∈ (create_shared_memory oracle s1 f size access).getState.shmNames)
    := by
  constructor
  · unfold create_shared_memory
    by_cases h : s.initialized <;>
      simp [init_shared_memory_entries, h, shm_unlink_names_idem,
        shm_open_excl, shm_exists_shm_unlink_names]
  · intro i1 s1 h1 hwf hne htr2
    obtain ⟨hfl1, hopen, htr1, hs1⟩ :=
      create_ok_shape oracle s f size access i1 s1 h1
    have e_init : s1.initialized = true := by
      rw [hs1]; exact init_initialized s
    have e_next : s1.nextFd = (init_shared_memory_entries s).nextFd + 1 := by
      rw [hs1]
    have e_names : s1.shmNames
        = (f, (init_shared_memory_entries s).nextFd)
            :: shm_unlink_names (init_shared_memory_entries s).shmNames f := by
      rw [hs1]
    have e_entries : s1.entries
        = (init_shared_memory_entries s).entries.set i1
            { filename := strncpy_buffer f PATH_MAX
              handle := (init_shared_memory_entries s).nextFd } := by
      rw [hs1]
    have hinitS : init_shared_memory_entries s1 = s1 :=
      init_of_initialized s1 e_init
    rw [e_next] at htr2
    obtain ⟨j, tl, hjtl⟩ : ∃ j tl, s1.freeList = j :: tl := by
      cases hl : s1.freeList with
      | nil => exact absurd hl hne
      | cons j tl => exact ⟨j, tl, rfl⟩
    refine ⟨?_, ?_, ?_⟩
    · simp [create_shared_memory, hinitS, list_first_entry, hjtl, e_names,
        e_next, shm_unlink_names_cons_self, shm_unlink_names_idem,
        shm_open_excl, shm_exists_shm_unlink_names, hopen, htr2,
        CreateResult.isOk]
    · simp [create_shared_memory, hinitS, list_first_entry, hjtl, e_names,
        e_next, shm_unlink_names_cons_self, shm_unlink_names_idem,
        shm_open_excl, shm_exists_shm_unlink_names, hopen, htr2,
        CreateResult.getState, e_entries, List.getD,
        List.getElem?_set_eq_of_lt _ hwf, not_mem_shm_unlink_names]
    · simp [create_shared_memory, hinitS, list_first_entry, hjtl, e_names,
        e_next, shm_unlink_names_cons_self, shm_unlink_names_idem,
        shm_open_excl, shm_exists_shm_unlink_names, hopen, htr2,
        CreateResult.getState]

set_option maxRecDepth 20000 in
/-- Witness for C4: two consecutive creations of the same name from the
pristine state — the second succeeds, the first object is gone from the
namespace and the second is present. -/
theorem C4_create_clobbers_existing_witness :
    (create_shared_memory allOkOracle
        (create_shared_memory allOkOracle initialState ['x'] 64
          page_access_t.ACC_READWRITE).getState ['x'] 64
        page_access_t.ACC_READWRITE).isOk = true
    ∧ (['x'],
        ((create_shared_memory allOkOracle initialState ['x'] 64
            page_access_t.ACC_READWRITE).getState.entries.getD
          (create_shared_memory allOkOracle initialState ['x'] 64
            page_access_t.ACC_READWRITE).getIdx default).handle)
        ∉ (create_shared_memory allOkOracle
            (create_shared_memory allOkOracle initialState ['x'] 64
              page_access_t.ACC_READWRITE).getState ['x'] 64
            page_access_t.ACC_READWRITE).getState.shmNames
    ∧ (['x'], (create_shared_memory allOkOracle initialState ['x'] 64
          page_access_t.ACC_READWRITE).getState.nextFd)
        ∈ (create_shared_memory allOkOracle
            (create_shared_memory allOkOracle initialState ['x'] 64
              page_access_t.ACC_READWRITE).getState ['x'] 64
            page_access_t.ACC_READWRITE).getState.shmNames :=
  (C4_create_clobbers_existing allOkOracle initialState ['x'] 64
      page_access_t.ACC_READWRITE).2
    (create_shared_memory allOkOracle initialState ['x'] 64
      page_access_t.ACC_READWRITE).getIdx
    (create_shared_memory allOkOracle initialState ['x'] 64
      page_access_t.ACC_READWRITE).getState
    rfl (by decide) (by decide) rfl

/-- The NUL padding reaches the buffer exactly when the source is shorter
than the buffer. -/
theorem mem_nul_strncpy_buffer (f : List Char) (n : Nat) (hnul : NUL ∉ f) :
    NUL ∈ strncpy_buffer f n ↔ f.length < n := by
  unfold strncpy_buffer
  constructor
  · intro h
    rcases List.mem_append.1 h with h | h
    · exact absurd (List.mem_of_mem_take h) hnul
    · have hlen : n - f.length ≠ 0 := by
        intro h0
        rw [h0] at h
        simp at h
      omega
  · intro h
    refine List.mem_append.2 (Or.inr ?_)
    exact List.mem_replicate.2 ⟨by omega, rfl⟩

/-- Reading up to the first NUL recovers the source when it fits. -/
theorem takeWhile_append_replicate_nul (f : List Char) (k : Nat)
    (hnul : NUL ∉ f) (hk : k ≠ 0) :
    (f ++ List.replicate k NUL).takeWhile (fun c => c != NUL) = f := by
  induction f with
  | nil =>
      cases k with
      | zero => exact absurd rfl hk
      | succ k2 => simp [List.replicate_succ, List.takeWhile_cons]
  | cons c t ih =>
      have hc : c ≠ NUL := fun h => hnul (h ▸ List.mem_cons_self c t)
      have ht : NUL ∉ t := fun h => hnul (List.mem_cons_of_mem c h)
      simp [List.takeWhile_cons, hc, ih ht]

/-- The C string stored by strncpy into an n-byte buffer is the source
exactly when the source is shorter than n, and is undefined otherwise
(the buffer is not NUL-terminated). -/
theorem stored_name_strncpy_buffer (f : List Char) (n : Nat)
    (hnul : NUL ∉ f) :
    stored_name (strncpy_buffer f n)
      = if f.length < n then some f else none := by
  unfold stored_name
  by_cases h : f.length < n
  · rw [if_pos h, if_pos ((mem_nul_strncpy_buffer f n hnul).2 h)]
    refine congrArg some ?_
    have hbuf : strncpy_buffer f n = f ++ List.replicate (n - f.length) NUL := by
      unfold strncpy_buffer
      rw [List.take_of_length_le (Nat.le_of_lt h)]
    rw [hbuf]
    exact takeWhile_append_replicate_nul f (n - f.length) hnul (by omega)
  · rw [if_neg h,
      if_neg (fun hm => h ((mem_nul_strncpy_buffer f n hnul).1 hm))]

/-- C10: create_shared_memory copies at most PATH_MAX bytes of the name
into the fixed entry buffer via strncpy: the NUL-terminated string stored
in the buffer equals the input name exactly when the name is strictly
shorter than PATH_MAX; for a name of PATH_MAX characters or more the
buffer holds the truncated first PATH_MAX characters with no NUL
terminator, so the stored C string is undefined and a later
destroy_shared_memory unlinks a name other than the created one. -/
theorem C10_create_truncates_long_names (oracle : OsOracle) (s : SysState)
    (f : List Char) (size : Nat) (access : page_access_t) (i : Nat)
    (s' : SysState)
    (hnul : NUL ∉ f)
    (hwf : i < (init_shared_memory_entries s).entries.length)
    (h : create_shared_memory oracle s f size access = CreateResult.ok i s') :
    (s'.entries.getD i default).filename = strncpy_buffer f PATH_MAX
    ∧ (stored_name (strncpy_buffer f PATH_MAX) = some f
        ↔ f.length < PATH_MAX)
    ∧ (PATH_MAX ≤ f.length →
        stored_name (strncpy_buffer f PATH_MAX) = none
        ∧ strncpy_buffer f PATH_MAX = f.take PATH_MAX) := by
  obtain ⟨-, -, -, hs⟩ := create_ok_shape oracle s f size access i s' h
  subst hs
  refine ⟨?_, ?_, ?_⟩
  · simp [List.getD, List.getElem?_set_eq_of_lt _ hwf]
  · rw [stored_name_strncpy_buffer f PATH_MAX hnul]
    by_cases hlen : f.length < PATH_MAX
    · simp [hlen]
    · simp [hlen]
  · intro hge
    constructor
    · rw [stored_name_strncpy_buffer f PATH_MAX hnul, if_neg (by omega)]
    · unfold strncpy_buffer
      rw [Nat.sub_eq_zero_of_le hge]
      simp

set_option maxRecDepth 20000 in
/-- Witness for C10 at a one-character name: the stored entry buffer is
the strncpy image of the name. -/
theorem C10_create_truncates_long_names_witness :
    ((create_shared_memory allOkOracle initialState ['x'] 64
        page_access_t.ACC_READWRITE).getState.entries.getD
      (create_shared_memory allOkOracle initialState ['x'] 64
        page_access_t.ACC_READWRITE).getIdx default).filename
      = strncpy_buffer ['x'] PATH_MAX
    ∧ (stored_name (strncpy_buffer ['x'] PATH_MAX) = some ['x']
        ↔ List.length ['x'] < PATH_MAX)
    ∧ (PATH_MAX ≤ List.length ['x'] →
        stored_name (strncpy_buffer ['x'] PATH_MAX) = none
        ∧ strncpy_buffer ['x'] PATH_MAX = List.take PATH_MAX ['x']) :=
  C10_create_truncates_long_names allOkOracle initialState ['x'] 64
    page_access_t.ACC_READWRITE
    (create_shared_memory allOkOracle initialState ['x'] 64
      page_access_t.ACC_READWRITE).getIdx
    (create_shared_memory allOkOracle initialState ['x'] 64
      page_access_t.ACC_READWRITE).getState
    (by decide) (by decide) rfl

end MemoryPosix
